import Mathlib

/-!
Verification of the benchmark-aggregation script `scripts/criterion_dim_plot.py`
of the la-stack repository, against its natural-language specification.

The Python functions are shallowly embedded as executable Lean definitions.
Conventions used throughout, chosen once and applied uniformly:

- Python floats are modelled as exact rationals.  All numeric values the
  script handles come out of JSON files and flow through arithmetic that the
  claims only exercise away from binary-rounding corner cases.
- A text document is modelled by the list of its lines as produced by
  Python's splitlines with keepends, i.e. every line except possibly
  the last ends with a newline character.  Only the newline character is
  treated as a line break.
- Python strings are Lean strings; str.strip is modelled over the
  whitespace characters space, tab, newline, carriage return, vertical tab
  and form feed.
- Fallible Python functions (raising exceptions) become Except-valued
  functions; the distinct exception payloads used by the script are
  distinguished by dedicated error types.
- Leading underscores of the Python names are dropped, otherwise names are
  kept.
-/

/-- Whitespace test matching the character class stripped by Python str.strip. -/
def pyIsSpace (c : Char) : Bool :=
  c == ' ' || c == '\t' || c == '\n' || c == '\r' || c == '\x0b' || c == '\x0c'

/-- Python str.strip(): remove leading and trailing whitespace. -/
def pyStrip (s : String) : String :=
  String.mk (((s.data.dropWhile pyIsSpace).reverse.dropWhile pyIsSpace).reverse)

/-- Python str.strip(newline): remove leading and trailing newline characters. -/
def pyStripNewlines (s : String) : String :=
  String.mk (((s.data.dropWhile (· == '\n')).reverse.dropWhile (· == '\n')).reverse)

/-- Split a character list at newline characters; the separators are dropped
and the pieces (possibly empty) are returned in order.  Never returns `[]`. -/
def splitOnNl : List Char → List (List Char)
  | [] => [[]]
  | c :: rest =>
    if c == '\n' then [] :: splitOnNl rest
    else
      match splitOnNl rest with
      | [] => [[c]]
      | h :: t => (c :: h) :: t

/-- Python str.splitlines() (without keepends), for newline-separated text:
the empty string gives no lines, and a trailing newline does not produce a
final empty line. -/
def pySplitlines (s : String) : List String :=
  match s.data with
  | [] => []
  | _ =>
    let parts := (splitOnNl s.data).map String.mk
    if parts.getLast? = some "" then parts.dropLast else parts

/-- Error raised by `update_readme_table`, mirroring the two distinct
`ReadmeMarkerError` messages of the script. -/
inductive ReadmeMarkerError where
  | notFoundOrNotUnique
  | outOfOrder
deriving DecidableEq, Repr

/-- The list comprehension
`[i for i, line in enumerate(lines) if line.strip() == marker]`
from `_update_readme_table`. -/
def markerIndices (lines : List String) (marker : String) : List Nat :=
  (lines.enum.filter (fun p => pyStrip p.2 == marker)).map Prod.fst

/-- The replacement lines
`[line + "\n" for line in table_md.strip("\n").splitlines()]`
from `_update_readme_table`. -/
def tableLinesOf (table_md : String) : List String :=
  (pySplitlines (pyStripNewlines table_md)).map (fun line => line ++ "\n")

/-- Embedding of `_update_readme_table`.  The document is passed in (and
returned) as its keepends line list; the first component is the script's
result (the returned changed flag, or the raised marker error) and the
second component is the file content after the call, capturing that
`write_text` runs only in the changed branch, after all validation. -/
def update_readme_table (lines : List String) (marker_begin marker_end table_md : String) :
    Except ReadmeMarkerError Bool × List String :=
  let begin_indices := markerIndices lines marker_begin
  let end_indices := markerIndices lines marker_end
  if begin_indices.length ≠ 1 ∨ end_indices.length ≠ 1 then
    (Except.error ReadmeMarkerError.notFoundOrNotUnique, lines)
  else
    let begin_idx := begin_indices.headD 0
    let end_idx := end_indices.headD 0
    if begin_idx ≥ end_idx then
      (Except.error ReadmeMarkerError.outOfOrder, lines)
    else
      let new_lines := lines.take (begin_idx + 1) ++ tableLinesOf table_md ++ lines.drop end_idx
      if new_lines = lines then
        (Except.ok false, lines)
      else
        (Except.ok true, new_lines)

/-- Helper for reasoning about `markerIndices`: the indices at which the
stripped line equals the marker, counting from a starting offset. -/
def idxFilter (n : Nat) (l : List String) (marker : String) : List Nat :=
  match l with
  | [] => []
  | a :: t =>
    if pyStrip a == marker then n :: idxFilter (n + 1) t marker
    else idxFilter (n + 1) t marker

/-- Digit-grouping step of Python format: insert a comma after every three
characters of a reversed digit string. -/
def sepChunks : List Char → List Char
  | c1 :: c2 :: c3 :: c4 :: rest => c1 :: c2 :: c3 :: ',' :: sepChunks (c4 :: rest)
  | cs => cs

/-- Thousands separators of the Python comma format spec. -/
def groupThousands (s : String) : String :=
  String.mk (sepChunks s.data.reverse).reverse

/-- Pad a digit string on the left with zeros to a given width. -/
def padLeftZeros (s : String) (k : Nat) : String :=
  String.mk (List.replicate (k - s.length) '0') ++ s

/-- Round to the nearest integer, ties to even: the rounding used by Python
fixed-point float formatting (modelled on exact rationals). -/
def roundHalfEven (q : ℚ) : Int :=
  let f := ⌊q⌋
  if q - f < 1/2 then f
  else if (1 : ℚ)/2 < q - f then f + 1
  else if f % 2 = 0 then f else f + 1

/-- Ten to a natural power, as a rational. -/
def tenPow : Nat → ℚ
  | 0 => 1
  | n + 1 => 10 * tenPow n

/-- Digit-assembly part of Python fixed-point formatting: given the sign of
the value and the rounded scaled magnitude, build the formatted string
(optional explicit plus sign, optional thousands separators, k decimals). -/
def formatDigits (plus sep : Bool) (k : Nat) (neg : Bool) (a : Nat) : String :=
  let ip := a / 10 ^ k
  let fp := a % 10 ^ k
  let sign := if neg then "-" else if plus then "+" else ""
  let ipStr := if sep then groupThousands (Nat.repr ip) else Nat.repr ip
  if k = 0 then sign ++ ipStr
  else sign ++ ipStr ++ "." ++ padLeftZeros (Nat.repr fp) k

/-- Python fixed-point format of a rational with k decimal places;
plus requests an explicit sign and sep requests thousands separators.
This models the format specs used by the script, such as plus point one f
and comma point three f. -/
def formatFixed (plus sep : Bool) (k : Nat) (q : ℚ) : String :=
  formatDigits plus sep k (decide (q < 0)) (roundHalfEven (q * tenPow k)).natAbs

/-- Embedding of `_pct_reduction`: percent time reduction relative to
baseline, the not-applicable sentinel when the baseline is zero. -/
def pct_reduction (baseline value : ℚ) : String :=
  if baseline = 0 then "n/a"
  else formatFixed true false 1 ((baseline - value) / baseline * 100) ++ "%"

/-- Embedding of the frozen `Row` dataclass. -/
structure Row where
  dim : Nat
  la_time : ℚ
  la_lo : ℚ
  la_hi : ℚ
  na_time : ℚ
  na_lo : ℚ
  na_hi : ℚ
  fa_time : ℚ
  fa_lo : ℚ
  fa_hi : ℚ

/-- One data row of `_markdown_table`. -/
def rowLine (row : Row) : String :=
  "| " ++ Nat.repr row.dim ++
  " | " ++ formatFixed false true 3 row.la_time ++
  " | " ++ formatFixed false true 3 row.na_time ++
  " | " ++ formatFixed false true 3 row.fa_time ++
  " | " ++ pct_reduction row.na_time row.la_time ++
  " | " ++ pct_reduction row.fa_time row.la_time ++ " |"

/-- Embedding of `_markdown_table`. -/
def markdown_table (rows : List Row) (stat : String) : String :=
  let header := "| D | la-stack " ++ stat ++ " (ns) | nalgebra " ++ stat ++
    " (ns) | faer " ++ stat ++ " (ns) | la-stack vs nalgebra | la-stack vs faer |"
  let divider := "|---:|--------------------:|--------------------:|----------------:|---------------------:|----------------:|"
  String.intercalate "\n" (header :: divider :: rows.map rowLine)

/-- Parsed JSON values, covering the shapes `_read_estimate` inspects. -/
inductive Json where
  | num (q : ℚ)
  | str (s : String)
  | boolVal (b : Bool)
  | null
  | obj (kvs : List (String × Json))

/-- Errors `_read_estimate` can raise: the formatted KeyError for a missing
or non-mapping statistic, a plain KeyError for a missing key subscript, and
the error of float() applied to a non-numeric value. -/
inductive ReadError where
  | statNotFound
  | keyError (key : String)
  | typeError
deriving DecidableEq, Repr

/-- Python float() on a JSON value (rationals model floats; booleans convert
to zero and one; other shapes fail). -/
def pyFloat : Json → Option ℚ
  | Json.num q => some q
  | Json.boolVal b => some (if b then 1 else 0)
  | _ => none

/-- Model of `float(ci.get(key, default))` from `_read_estimate`: the stored
bound converted by float() when the key is present, the default otherwise. -/
def ciGet (ci : List (String × Json)) (key : String) (default : ℚ) : Option ℚ :=
  match ci.lookup key with
  | none => some default
  | some v => pyFloat v

/-- Embedding of `_read_estimate`, acting on the parsed JSON mapping of the
estimates file.  A missing or non-mapping statistic raises the formatted
KeyError; a missing point_estimate subscript raises a KeyError; a
non-mapping confidence interval yields the degenerate interval. -/
def read_estimate (data : List (String × Json)) (stat : String) :
    Except ReadError (ℚ × ℚ × ℚ) :=
  match data.lookup stat with
  | some (Json.obj stat_obj) =>
    match stat_obj.lookup "point_estimate" with
    | none => Except.error (ReadError.keyError "point_estimate")
    | some v =>
      match pyFloat v with
      | none => Except.error ReadError.typeError
      | some point =>
        match stat_obj.lookup "confidence_interval" with
        | some (Json.obj ci) =>
          match ciGet ci "lower_bound" point, ciGet ci "upper_bound" point with
          | some lo, some hi => Except.ok (point, lo, hi)
          | _, _ => Except.error ReadError.typeError
        | _ => Except.ok (point, point, point)
  | _ => Except.error ReadError.statNotFound

/-- Embedding of the `Metric` dataclass. -/
structure Metric where
  la_bench : String
  na_bench : String
  fa_bench : String
  title : String

/-- Path of one estimates file, as its component list:
criterion_dir, then the dimension group directory, benchmark, sample,
and the estimates file name. -/
def est_path (criterion_dir : List String) (d : Nat) (bench sample : String) : List String :=
  criterion_dir ++ ["d" ++ Nat.repr d, bench, sample, "estimates.json"]

/-- The filesystem as seen by `_collect_rows`: which paths exist, and the
parsed JSON mapping obtained by reading an existing estimates file. -/
structure Fs where
  fileExists : List String → Bool
  parsed : List String → List (String × Json)

/-- The skip-list entry recorded by `_collect_rows` for a dimension with a
missing estimates file. -/
def skip_reason (d : Nat) (metric : Metric) : String :=
  "d" ++ Nat.repr d ++ " (missing " ++ metric.la_bench ++ ", " ++
    metric.na_bench ++ ", or " ++ metric.fa_bench ++ ")"

/-- Embedding of `_collect_rows`: walk the dimensions in order; a dimension
with any of the three estimates files missing goes to the skip list, one
with all three present is read into a row; a read failure aborts the whole
call (the Python exception propagates). -/
def collect_rows (fs : Fs) (criterion_dir : List String) (dims : List Nat)
    (metric : Metric) (stat sample : String) :
    Except ReadError (List Row × List String) :=
  match dims with
  | [] => Except.ok ([], [])
  | d :: rest =>
    let la_est := est_path criterion_dir d metric.la_bench sample
    let na_est := est_path criterion_dir d metric.na_bench sample
    let fa_est := est_path criterion_dir d metric.fa_bench sample
    if !fs.fileExists la_est || !fs.fileExists na_est || !fs.fileExists fa_est then
      match collect_rows fs criterion_dir rest metric stat sample with
      | Except.error e => Except.error e
      | Except.ok (rows, skipped) => Except.ok (rows, skip_reason d metric :: skipped)
    else
      match read_estimate (fs.parsed la_est) stat with
      | Except.error e => Except.error e
      | Except.ok (la, la_lo, la_hi) =>
        match read_estimate (fs.parsed na_est) stat with
        | Except.error e => Except.error e
        | Except.ok (na, na_lo, na_hi) =>
          match read_estimate (fs.parsed fa_est) stat with
          | Except.error e => Except.error e
          | Except.ok (fa, fa_lo, fa_hi) =>
            match collect_rows fs criterion_dir rest metric stat sample with
            | Except.error e => Except.error e
            | Except.ok (rows, skipped) =>
              Except.ok (⟨d, la, la_lo, la_hi, na, na_lo, na_hi, fa, fa_lo, fa_hi⟩ :: rows, skipped)

/-- All three estimates files of a dimension are present. -/
def allPresent (fs : Fs) (criterion_dir : List String) (metric : Metric)
    (sample : String) (d : Nat) : Bool :=
  fs.fileExists (est_path criterion_dir d metric.la_bench sample) &&
  fs.fileExists (est_path criterion_dir d metric.na_bench sample) &&
  fs.fileExists (est_path criterion_dir d metric.fa_bench sample)

/-- Numeric value of a digit string, as computed by Python int(). -/
def digitsVal (cs : List Char) : Nat :=
  cs.foldl (fun n c => n * 10 + (c.toNat - '0'.toNat)) 0

/-- Embedding of `_dim_from_group_dir`: the full match of the group-directory
regular expression, the letter d followed by one or more digits. -/
def dim_from_group_dir (name : String) : Option Nat :=
  match name.data with
  | 'd' :: rest =>
    if !rest.isEmpty && rest.all Char.isDigit then some (digitsVal rest) else none
  | _ => none

/-- Embedding of `_discover_dims`: keep the directory children, parse the
group-directory names, and sort ascending (Python sorted, modelled by a
stable insertion sort). -/
def discover_dims (children : List (String × Bool)) : List Nat :=
  List.insertionSort (· ≤ ·)
    ((children.filter (fun c => c.2)).filterMap (fun c => dim_from_group_dir c.1))

/-! ### Lemmas about marker indices -/

theorem enumFrom_filter_map (m : String) (l : List String) :
    ∀ n : Nat,
      ((List.enumFrom n l).filter (fun p => pyStrip p.2 == m)).map Prod.fst = idxFilter n l m := by
  induction l with
  | nil => intro n; rfl
  | cons a t ih =>
    intro n
    simp only [List.enumFrom, List.filter_cons, idxFilter]
    by_cases h : pyStrip a == m
    · simp [h, ih]
    · simp [h, ih]

theorem markerIndices_eq (l : List String) (m : String) :
    markerIndices l m = idxFilter 0 l m :=
  enumFrom_filter_map m l 0

theorem idxFilter_map_add (l : List String) (m : String) :
    ∀ n : Nat, idxFilter n l m = (idxFilter 0 l m).map (· + n) := by
  induction l with
  | nil => intro n; rfl
  | cons a t ih =>
    intro n
    simp only [idxFilter]
    by_cases h : pyStrip a == m
    · simp only [if_pos h, ih (n + 1), ih 1, List.map_cons, List.map_map]
      refine congrArg₂ _ (Nat.zero_add n).symm (List.map_congr_left ?_)
      intro x _
      simp [Nat.add_assoc, Nat.add_comm 1 n]
    · simp only [if_neg h, ih (n + 1), ih 1, List.map_map]
      refine List.map_congr_left ?_
      intro x _
      simp [Nat.add_assoc, Nat.add_comm 1 n]

theorem idxFilter_append (m : String) (xs ys : List String) :
    ∀ n : Nat, idxFilter n (xs ++ ys) m = idxFilter n xs m ++ idxFilter (n + xs.length) ys m := by
  induction xs with
  | nil => intro n; simp [idxFilter]
  | cons a t ih =>
    intro n
    simp only [List.cons_append, idxFilter, List.append_eq, ih (n + 1), List.length_cons]
    have e : n + 1 + t.length = n + (t.length + 1) := by omega
    rw [e]
    by_cases h : pyStrip a == m
    · simp [h]
    · simp [h]

theorem idxFilter_mem_bound (m : String) (l : List String) :
    ∀ n i : Nat, i ∈ idxFilter n l m → n ≤ i ∧ i < n + l.length := by
  induction l with
  | nil => intro n i h; simp [idxFilter] at h
  | cons a t ih =>
    intro n i h
    simp only [idxFilter] at h
    by_cases hp : pyStrip a == m
    · rw [if_pos hp] at h
      rcases List.mem_cons.mp h with h1 | h2
      · subst h1; simp
      · have := ih (n + 1) i h2
        constructor <;> [omega; (simp only [List.length_cons]; omega)]
    · rw [if_neg hp] at h
      have := ih (n + 1) i h
      constructor <;> [omega; (simp only [List.length_cons]; omega)]

theorem idxFilter_length (m : String) (l : List String) :
    ∀ n : Nat, (idxFilter n l m).length = l.countP (fun s => pyStrip s == m) := by
  induction l with
  | nil => intro n; rfl
  | cons a t ih =>
    intro n
    simp only [idxFilter, List.countP_cons]
    by_cases h : pyStrip a == m
    · simp [h, ih]
    · simp [h, ih]

theorem idxFilter_eq_nil_of_countP (m : String) (l : List String) (n : Nat)
    (h : l.countP (fun s => pyStrip s == m) = 0) : idxFilter n l m = [] :=
  List.eq_nil_of_length_eq_zero ((idxFilter_length m l n).trans h)

theorem markerIndices_length (l : List String) (m : String) :
    (markerIndices l m).length = l.countP (fun s => pyStrip s == m) := by
  rw [markerIndices_eq]
  exact idxFilter_length m l 0

theorem markerIndices_lt_length (l : List String) (m : String) (i : Nat)
    (h : markerIndices l m = [i]) : i < l.length := by
  have hmem : i ∈ idxFilter 0 l m := by
    rw [← markerIndices_eq, h]
    exact List.mem_singleton.mpr rfl
  have := idxFilter_mem_bound m l 0 i hmem
  omega

theorem update_eq_error_not_unique (lines : List String) (mb me tm : String)
    (h : (markerIndices lines mb).length ≠ 1 ∨ (markerIndices lines me).length ≠ 1) :
    update_readme_table lines mb me tm =
      (Except.error ReadmeMarkerError.notFoundOrNotUnique, lines) := by
  simp only [update_readme_table]
  rw [if_pos h]

theorem update_eq_error_order (lines : List String) (mb me tm : String) (b e : Nat)
    (hb : markerIndices lines mb = [b]) (he : markerIndices lines me = [e])
    (h : e ≤ b) :
    update_readme_table lines mb me tm =
      (Except.error ReadmeMarkerError.outOfOrder, lines) := by
  simp only [update_readme_table, hb, he, List.length_cons, List.length_nil, List.headD]
  rw [if_neg (by simp), if_pos h]

theorem update_eq_ok (lines : List String) (mb me tm : String) (b e : Nat)
    (hb : markerIndices lines mb = [b]) (he : markerIndices lines me = [e])
    (hlt : b < e) :
    update_readme_table lines mb me tm =
      (if lines.take (b + 1) ++ tableLinesOf tm ++ lines.drop e = lines then
        (Except.ok false, lines)
      else
        (Except.ok true, lines.take (b + 1) ++ tableLinesOf tm ++ lines.drop e)) := by
  simp only [update_readme_table, hb, he, List.length_cons, List.length_nil, List.headD]
  rw [if_neg (by simp), if_neg (by omega)]

/-! ### Claims about marker validation, error behaviour and the frame -/

/-- C3: `update_readme_table` raises the markers-not-found-or-not-unique
error exactly when it is not the case that exactly one stripped line of the
document equals the begin marker and exactly one equals the end marker;
when both are unique it raises the out-of-order error exactly when the
begin marker's line index is not strictly less than the end marker's; in
every other case it raises no marker error. -/
theorem update_readme_table_marker_validation (lines : List String) (mb me tm : String) :
    ((update_readme_table lines mb me tm).1 =
        Except.error ReadmeMarkerError.notFoundOrNotUnique ↔
      ¬(lines.countP (fun l => pyStrip l == mb) = 1 ∧
        lines.countP (fun l => pyStrip l == me) = 1)) ∧
    (∀ b e : Nat, markerIndices lines mb = [b] → markerIndices lines me = [e] →
      ((update_readme_table lines mb me tm).1 = Except.error ReadmeMarkerError.outOfOrder ↔
        e ≤ b)) ∧
    (∀ b e : Nat, markerIndices lines mb = [b] → markerIndices lines me = [e] → b < e →
      ∃ changed : Bool, (update_readme_table lines mb me tm).1 = Except.ok changed) := by
  refine ⟨?_, ?_, ?_⟩
  · by_cases hc : lines.countP (fun l => pyStrip l == mb) = 1 ∧
        lines.countP (fun l => pyStrip l == me) = 1
    · obtain ⟨hcb, hce⟩ := hc
      have hlb : (markerIndices lines mb).length = 1 := by
        rw [markerIndices_length]; exact hcb
      have hle : (markerIndices lines me).length = 1 := by
        rw [markerIndices_length]; exact hce
      obtain ⟨b, hb⟩ := List.length_eq_one.mp hlb
      obtain ⟨e, he⟩ := List.length_eq_one.mp hle
      rcases Nat.lt_or_ge b e with hlt | hge
      · rw [update_eq_ok lines mb me tm b e hb he hlt]
        by_cases hnew : lines.take (b + 1) ++ tableLinesOf tm ++ lines.drop e = lines
        · rw [if_pos hnew]
          simp [hcb, hce]
        · rw [if_neg hnew]
          simp [hcb, hce]
      · rw [update_eq_error_order lines mb me tm b e hb he hge]
        simp [hcb, hce]
    · have hbad : (markerIndices lines mb).length ≠ 1 ∨ (markerIndices lines me).length ≠ 1 := by
        rw [markerIndices_length, markerIndices_length]
        tauto
      rw [update_eq_error_not_unique lines mb me tm hbad]
      simp [hc]
  · intro b e hb he
    rcases Nat.lt_or_ge b e with hlt | hge
    · rw [update_eq_ok lines mb me tm b e hb he hlt]
      by_cases hnew : lines.take (b + 1) ++ tableLinesOf tm ++ lines.drop e = lines
      · rw [if_pos hnew]
        simp
        omega
      · rw [if_neg hnew]
        simp
        omega
    · rw [update_eq_error_order lines mb me tm b e hb he hge]
      simp [hge]
  · intro b e hb he hlt
    rw [update_eq_ok lines mb me tm b e hb he hlt]
    by_cases hnew : lines.take (b + 1) ++ tableLinesOf tm ++ lines.drop e = lines
    · exact ⟨false, by rw [if_pos hnew]⟩
    · exact ⟨true, by rw [if_neg hnew]⟩

/-- Witness for C3 at concrete documents: a document without markers gets
the not-found error, reversed markers get the out-of-order error, and a
well-formed document raises no marker error. -/
theorem update_readme_table_marker_validation_witness :
    (update_readme_table ["# T\n"] "<!-- B -->" "<!-- E -->" "| x |").1 =
      Except.error ReadmeMarkerError.notFoundOrNotUnique ∧
    (update_readme_table ["<!-- E -->\n", "<!-- B -->\n"] "<!-- B -->" "<!-- E -->" "| x |").1 =
      Except.error ReadmeMarkerError.outOfOrder ∧
    ∃ changed : Bool,
      (update_readme_table ["<!-- B -->\n", "old\n", "<!-- E -->\n"]
        "<!-- B -->" "<!-- E -->" "| x |").1 = Except.ok changed := by
  refine ⟨?_, ?_, ?_⟩
  · exact (update_readme_table_marker_validation ["# T\n"] "<!-- B -->" "<!-- E -->" "| x |").1.mpr
      (by decide)
  · exact ((update_readme_table_marker_validation ["<!-- E -->\n", "<!-- B -->\n"]
      "<!-- B -->" "<!-- E -->" "| x |").2.1 1 0 (by decide) (by decide)).mpr (by decide)
  · exact (update_readme_table_marker_validation ["<!-- B -->\n", "old\n", "<!-- E -->\n"]
      "<!-- B -->" "<!-- E -->" "| x |").2.2 0 2 (by decide) (by decide) (by decide)

/-- C9: whenever `update_readme_table` raises a marker error, the document
file is left unchanged: the write runs only after all marker validation
succeeds, and only when the new content differs. -/
theorem update_readme_table_error_leaves_file (lines : List String) (mb me tm : String)
    (err : ReadmeMarkerError)
    (h : (update_readme_table lines mb me tm).1 = Except.error err) :
    (update_readme_table lines mb me tm).2 = lines := by
  by_cases hbad : (markerIndices lines mb).length ≠ 1 ∨ (markerIndices lines me).length ≠ 1
  · rw [update_eq_error_not_unique lines mb me tm hbad]
  · push_neg at hbad
    obtain ⟨hlb, hle⟩ := hbad
    obtain ⟨b, hb⟩ := List.length_eq_one.mp hlb
    obtain ⟨e, he⟩ := List.length_eq_one.mp hle
    rcases Nat.lt_or_ge b e with hlt | hge
    · rw [update_eq_ok lines mb me tm b e hb he hlt] at h ⊢
      by_cases hnew : lines.take (b + 1) ++ tableLinesOf tm ++ lines.drop e = lines
      · rw [if_pos hnew]
      · rw [if_neg hnew] at h
        simp at h
    · rw [update_eq_error_order lines mb me tm b e hb he hge]

/-- Witness for C9: a document with duplicated begin markers errors and is
returned unchanged. -/
theorem update_readme_table_error_leaves_file_witness :
    (update_readme_table ["<!-- B -->\n", "<!-- B -->\n", "<!-- E -->\n"]
      "<!-- B -->" "<!-- E -->" "| x |").2 =
      ["<!-- B -->\n", "<!-- B -->\n", "<!-- E -->\n"] :=
  update_readme_table_error_leaves_file
    ["<!-- B -->\n", "<!-- B -->\n", "<!-- E -->\n"] "<!-- B -->" "<!-- E -->" "| x |"
    ReadmeMarkerError.notFoundOrNotUnique (by rfl)

/-- C4: whenever `update_readme_table` succeeds, the resulting document is
the prefix up to and including the begin-marker line, then exactly the
replacement content's lines, then the lines from the end-marker line to the
end, all preserved verbatim and in order. -/
theorem update_readme_table_frame (lines : List String) (mb me tm : String)
    (b e : Nat) (c : Bool)
    (hb : markerIndices lines mb = [b]) (he : markerIndices lines me = [e])
    (hok : (update_readme_table lines mb me tm).1 = Except.ok c) :
    (update_readme_table lines mb me tm).2 =
        lines.take (b + 1) ++ tableLinesOf tm ++ lines.drop e ∧
    ((update_readme_table lines mb me tm).2).take (b + 1) = lines.take (b + 1) ∧
    ((update_readme_table lines mb me tm).2).drop (b + 1 + (tableLinesOf tm).length) =
        lines.drop e ∧
    (((update_readme_table lines mb me tm).2).drop (b + 1)).take (tableLinesOf tm).length =
        tableLinesOf tm := by
  have hlt : b < e := by
    rcases Nat.lt_or_ge b e with hlt | hge
    · exact hlt
    · rw [update_eq_error_order lines mb me tm b e hb he hge] at hok
      simp at hok
  have hblen : b + 1 ≤ lines.length := by
    have := markerIndices_lt_length lines me e he
    omega
  have hA : (lines.take (b + 1)).length = b + 1 := by
    rw [List.length_take]
    omega
  have hdoc : (update_readme_table lines mb me tm).2 =
      lines.take (b + 1) ++ tableLinesOf tm ++ lines.drop e := by
    rw [update_eq_ok lines mb me tm b e hb he hlt]
    by_cases hnew : lines.take (b + 1) ++ tableLinesOf tm ++ lines.drop e = lines
    · rw [if_pos hnew]
      exact hnew.symm
    · rw [if_neg hnew]
  refine ⟨hdoc, ?_, ?_, ?_⟩
  · rw [hdoc, List.append_assoc]
    exact List.take_left' hA
  · rw [hdoc]
    refine List.drop_left' ?_
    rw [List.length_append, hA]
  · rw [hdoc, List.append_assoc, List.drop_left' hA]
    exact List.take_left (tableLinesOf tm) (lines.drop e)

/-- Witness for C4 at a concrete document. -/
theorem update_readme_table_frame_witness :
    (update_readme_table ["# T\n", "<!-- B -->\n", "old\n", "<!-- E -->\n", "tail\n"]
        "<!-- B -->" "<!-- E -->" "| x |").2 =
      ["# T\n", "<!-- B -->\n", "| x |\n", "<!-- E -->\n", "tail\n"] := by
  have h := update_readme_table_frame
    ["# T\n", "<!-- B -->\n", "old\n", "<!-- E -->\n", "tail\n"]
    "<!-- B -->" "<!-- E -->" "| x |" 1 3 true (by decide) (by decide) (by rfl)
  exact h.1

/-! ### Lemmas for the idempotence claim -/

theorem append_eq_singleton_cases {A B : List Nat} {x : Nat} (h : A ++ B = [x]) :
    (A = [x] ∧ B = []) ∨ (A = [] ∧ B = [x]) := by
  cases A with
  | nil =>
    right
    exact ⟨rfl, by simpa using h⟩
  | cons a t =>
    left
    rw [List.cons_append] at h
    injection h with h1 h2
    obtain ⟨rfl, rfl⟩ := List.append_eq_nil.mp h2
    rw [h1]
    exact ⟨rfl, rfl⟩

theorem map_add_singleton {X : List Nat} {k i : Nat} (h : X.map (· + k) = [i]) :
    X = [i - k] ∧ k ≤ i := by
  cases X with
  | nil => simp at h
  | cons a t =>
    simp only [List.map_cons] at h
    injection h with h1 h2
    have ht : t = [] := by
      cases t with
      | nil => rfl
      | cons b u => simp at h2
    subst ht
    have ha : a = i - k := by omega
    exact ⟨by rw [ha], by omega⟩

theorem idxFilter_take_drop (m : String) (l : List String) (k : Nat) (hk : k ≤ l.length) :
    idxFilter 0 l m =
      idxFilter 0 (l.take k) m ++ (idxFilter 0 (l.drop k) m).map (· + k) := by
  conv_lhs => rw [← List.take_append_drop k l]
  rw [idxFilter_append m (l.take k) (l.drop k) 0]
  have hlen : 0 + (l.take k).length = k := by
    rw [List.length_take]
    omega
  rw [hlen, idxFilter_map_add (l.drop k) m k]

theorem idxFilter_singleton_before (m : String) (l : List String) (k i : Nat)
    (hk : k ≤ l.length) (h : idxFilter 0 l m = [i]) (hik : i < k) :
    idxFilter 0 (l.take k) m = [i] ∧ idxFilter 0 (l.drop k) m = [] := by
  rw [idxFilter_take_drop m l k hk] at h
  rcases append_eq_singleton_cases h with ⟨h1, h2⟩ | ⟨h1, h2⟩
  · exact ⟨h1, by simpa using h2⟩
  · exfalso
    obtain ⟨hX, hki⟩ := map_add_singleton h2
    omega

theorem idxFilter_singleton_after (m : String) (l : List String) (k i : Nat)
    (hk : k ≤ l.length) (h : idxFilter 0 l m = [i]) (hik : k ≤ i) :
    idxFilter 0 (l.take k) m = [] ∧ idxFilter 0 (l.drop k) m = [i - k] := by
  rw [idxFilter_take_drop m l k hk] at h
  rcases append_eq_singleton_cases h with ⟨h1, h2⟩ | ⟨h1, h2⟩
  · exfalso
    have hmem : i ∈ idxFilter 0 (l.take k) m := by
      rw [h1]
      exact List.mem_singleton.mpr rfl
    have hbd := idxFilter_mem_bound m (l.take k) 0 i hmem
    have hlen : (l.take k).length ≤ k := by
      rw [List.length_take]
      omega
    omega
  · exact ⟨h1, (map_add_singleton h2).1⟩

theorem countP_zero_of_forall (m : String) (l : List String)
    (h : ∀ s ∈ l, pyStrip s ≠ m) : l.countP (fun s => pyStrip s == m) = 0 := by
  refine List.countP_eq_zero.mpr ?_
  intro a ha
  simp only [beq_iff_eq]
  exact h a ha

theorem update_snd_on_lt (lines : List String) (mb me tm : String) (b e : Nat)
    (hb : markerIndices lines mb = [b]) (he : markerIndices lines me = [e])
    (hlt : b < e) :
    (update_readme_table lines mb me tm).2 =
      lines.take (b + 1) ++ tableLinesOf tm ++ lines.drop e := by
  rw [update_eq_ok lines mb me tm b e hb he hlt]
  by_cases hnew : lines.take (b + 1) ++ tableLinesOf tm ++ lines.drop e = lines
  · rw [if_pos hnew]
    exact hnew.symm
  · rw [if_neg hnew]

theorem idxFilter_new_doc (lines : List String) (mb me tm : String) (b e : Nat)
    (hb : idxFilter 0 lines mb = [b]) (he : idxFilter 0 lines me = [e])
    (hlt : b < e) (helen : e < lines.length)
    (htab : ∀ l ∈ tableLinesOf tm, pyStrip l ≠ mb ∧ pyStrip l ≠ me) :
    idxFilter 0 (lines.take (b + 1) ++ tableLinesOf tm ++ lines.drop e) mb = [b] ∧
    idxFilter 0 (lines.take (b + 1) ++ tableLinesOf tm ++ lines.drop e) me =
      [b + 1 + (tableLinesOf tm).length] := by
  have hb1 : b + 1 ≤ lines.length := by omega
  have hA : (lines.take (b + 1)).length = b + 1 := by
    rw [List.length_take]
    omega
  obtain ⟨hAb, hDb⟩ := idxFilter_singleton_before mb lines (b + 1) b hb1 hb (by omega)
  obtain ⟨hAe, hSe'⟩ := idxFilter_singleton_after me lines e e (by omega) he (by omega)
  have hSb : idxFilter 0 (lines.drop e) mb = [] := by
    have h0 : (lines.drop (b + 1)).countP (fun s => pyStrip s == mb) = 0 := by
      rw [← idxFilter_length mb (lines.drop (b + 1)) 0, hDb]
      rfl
    have hsub : lines.drop e = (lines.drop (b + 1)).drop (e - (b + 1)) := by
      rw [List.drop_drop]
      congr 1
      omega
    refine idxFilter_eq_nil_of_countP mb _ 0 ?_
    rw [hsub]
    have hle := (List.drop_sublist (e - (b + 1)) (lines.drop (b + 1))).countP_le
      (fun s => pyStrip s == mb)
    omega
  have hAe2 : idxFilter 0 (lines.take (b + 1)) me = [] := by
    have h0 : (lines.take e).countP (fun s => pyStrip s == me) = 0 := by
      rw [← idxFilter_length me (lines.take e) 0, hAe]
      rfl
    have hsub : lines.take (b + 1) = (lines.take e).take (b + 1) := by
      rw [List.take_take]
      congr 1
      omega
    refine idxFilter_eq_nil_of_countP me _ 0 ?_
    rw [hsub]
    have hle := (List.take_sublist (b + 1) (lines.take e)).countP_le
      (fun s => pyStrip s == me)
    omega
  have hTb : idxFilter 0 (tableLinesOf tm) mb = [] :=
    idxFilter_eq_nil_of_countP mb _ 0
      (countP_zero_of_forall mb _ (fun s hs => (htab s hs).1))
  have hTe : idxFilter 0 (tableLinesOf tm) me = [] :=
    idxFilter_eq_nil_of_countP me _ 0
      (countP_zero_of_forall me _ (fun s hs => (htab s hs).2))
  have hSe0 : idxFilter 0 (lines.drop e) me = [0] := by
    rw [hSe']
    congr 1
    omega
  constructor
  · rw [idxFilter_append mb (lines.take (b + 1) ++ tableLinesOf tm) (lines.drop e) 0,
      idxFilter_append mb (lines.take (b + 1)) (tableLinesOf tm) 0,
      idxFilter_map_add (tableLinesOf tm) mb, hTb,
      idxFilter_map_add (lines.drop e) mb, hSb]
    simp [hAb]
  · rw [idxFilter_append me (lines.take (b + 1) ++ tableLinesOf tm) (lines.drop e) 0,
      idxFilter_append me (lines.take (b + 1)) (tableLinesOf tm) 0,
      idxFilter_map_add (tableLinesOf tm) me, hTe,
      idxFilter_map_add (lines.drop e) me, hSe0, hAe2]
    simp [List.length_append, hA]

/-- C1 counterexample: with replacement content equal to the begin-marker
line, the first call succeeds and reports a change, but the second call
with the very same arguments raises the marker-uniqueness error instead of
succeeding with no change, so re-running is not idempotent for arbitrary
replacement content. -/
theorem update_readme_table_rerun_counterexample :
    (update_readme_table ["<!-- B -->\n", "<!-- E -->\n"]
        "<!-- B -->" "<!-- E -->" "<!-- B -->").1 = Except.ok true ∧
    (update_readme_table
        (update_readme_table ["<!-- B -->\n", "<!-- E -->\n"]
          "<!-- B -->" "<!-- E -->" "<!-- B -->").2
        "<!-- B -->" "<!-- E -->" "<!-- B -->").1 =
      Except.error ReadmeMarkerError.notFoundOrNotUnique :=
  ⟨rfl, rfl⟩

/-- C1 (amended): on any document on which `update_readme_table` succeeds,
and provided no line of the replacement content equals either marker after
stripping, the call reports a change exactly when the resulting document
differs from the original (so the file is rewritten only then), and a
second call with the same markers and content succeeds, reports no change,
and leaves the document identical. -/
theorem update_readme_table_idempotent (lines : List String) (mb me tm : String) (c : Bool)
    (hok : (update_readme_table lines mb me tm).1 = Except.ok c)
    (htab : ∀ l ∈ tableLinesOf tm, pyStrip l ≠ mb ∧ pyStrip l ≠ me) :
    (c = true ↔ (update_readme_table lines mb me tm).2 ≠ lines) ∧
    update_readme_table (update_readme_table lines mb me tm).2 mb me tm =
      (Except.ok false, (update_readme_table lines mb me tm).2) := by
  by_cases hbad : (markerIndices lines mb).length ≠ 1 ∨ (markerIndices lines me).length ≠ 1
  · rw [update_eq_error_not_unique lines mb me tm hbad] at hok
    simp at hok
  · push_neg at hbad
    obtain ⟨hlb, hle⟩ := hbad
    obtain ⟨b, hb⟩ := List.length_eq_one.mp hlb
    obtain ⟨e, he⟩ := List.length_eq_one.mp hle
    have hlt : b < e := by
      rcases Nat.lt_or_ge b e with hlt | hge
      · exact hlt
      · rw [update_eq_error_order lines mb me tm b e hb he hge] at hok
        simp at hok
    have helen : e < lines.length := markerIndices_lt_length lines me e he
    have hA : (lines.take (b + 1)).length = b + 1 := by
      rw [List.length_take]
      omega
    have hdoc := update_snd_on_lt lines mb me tm b e hb he hlt
    obtain ⟨hNb, hNe⟩ := idxFilter_new_doc lines mb me tm b e
      ((markerIndices_eq lines mb).symm.trans hb)
      ((markerIndices_eq lines me).symm.trans he) hlt helen htab
    have hNb' : markerIndices (lines.take (b + 1) ++ tableLinesOf tm ++ lines.drop e) mb
        = [b] := (markerIndices_eq _ mb).trans hNb
    have hNe' : markerIndices (lines.take (b + 1) ++ tableLinesOf tm ++ lines.drop e) me
        = [b + 1 + (tableLinesOf tm).length] := (markerIndices_eq _ me).trans hNe
    have hsecond :
        update_readme_table (lines.take (b + 1) ++ tableLinesOf tm ++ lines.drop e) mb me tm =
          (Except.ok false, lines.take (b + 1) ++ tableLinesOf tm ++ lines.drop e) := by
      rw [update_eq_ok _ mb me tm b (b + 1 + (tableLinesOf tm).length) hNb' hNe' (by omega)]
      have htake : (lines.take (b + 1) ++ tableLinesOf tm ++ lines.drop e).take (b + 1) =
          lines.take (b + 1) := by
        rw [List.append_assoc]
        exact List.take_left' hA
      have hdrop : (lines.take (b + 1) ++ tableLinesOf tm ++ lines.drop e).drop
          (b + 1 + (tableLinesOf tm).length) = lines.drop e := by
        refine List.drop_left' ?_
        rw [List.length_append, hA]
      rw [htake, hdrop, if_pos rfl]
    constructor
    · rw [update_eq_ok lines mb me tm b e hb he hlt] at hok
      rw [hdoc]
      by_cases hnew : lines.take (b + 1) ++ tableLinesOf tm ++ lines.drop e = lines
      · rw [if_pos hnew] at hok
        simp only [] at hok
        injection hok with hc
        subst hc
        exact iff_of_false Bool.false_ne_true (not_not_intro hnew)
      · rw [if_neg hnew] at hok
        simp only [] at hok
        injection hok with hc
        subst hc
        exact iff_of_true rfl hnew
    · rw [hdoc]
      exact hsecond

/-- Witness for the amended C1 at a concrete document: the first call
changes the file, the second is a no-op with identical content. -/
theorem update_readme_table_idempotent_witness :
    (true = true ↔
      (update_readme_table ["<!-- B -->\n", "old\n", "<!-- E -->\n"]
          "<!-- B -->" "<!-- E -->" "| x |").2 ≠
        ["<!-- B -->\n", "old\n", "<!-- E -->\n"]) ∧
    update_readme_table
        (update_readme_table ["<!-- B -->\n", "old\n", "<!-- E -->\n"]
          "<!-- B -->" "<!-- E -->" "| x |").2
        "<!-- B -->" "<!-- E -->" "| x |" =
      (Except.ok false,
        (update_readme_table ["<!-- B -->\n", "old\n", "<!-- E -->\n"]
          "<!-- B -->" "<!-- E -->" "| x |").2) :=
  update_readme_table_idempotent ["<!-- B -->\n", "old\n", "<!-- E -->\n"]
    "<!-- B -->" "<!-- E -->" "| x |" true (by rfl) (by decide)

/-! ### Claims about the estimate reader -/

/-- C7 counterexample: the named statistic key is present in the mapping,
yet `read_estimate` raises the KeyError for the missing point_estimate
subscript instead of returning a triple, refuting the claim's clause that
it otherwise returns the triple. -/
theorem read_estimate_missing_point_counterexample :
    ([("median", Json.obj [])].lookup "median").isSome = true ∧
    read_estimate [("median", Json.obj [])] "median" =
      Except.error (ReadError.keyError "point_estimate") :=
  ⟨rfl, rfl⟩

/-- C7 (amended): `read_estimate` fails with the lookup error when the named
statistic key is absent or its value is not a mapping, and with the
point-estimate lookup error when the statistic mapping lacks
point_estimate; otherwise, with a convertible point estimate, it returns the
triple of point and bounds, and when no confidence-interval mapping is
present the returned lower and upper both equal the point estimate. -/
theorem read_estimate_spec (data : List (String × Json)) (stat : String) :
    (data.lookup stat = none →
      read_estimate data stat = Except.error ReadError.statNotFound) ∧
    (∀ x : Json, data.lookup stat = some x → (∀ kvs, x ≠ Json.obj kvs) →
      read_estimate data stat = Except.error ReadError.statNotFound) ∧
    (∀ stat_obj : List (String × Json), data.lookup stat = some (Json.obj stat_obj) →
      stat_obj.lookup "point_estimate" = none →
      read_estimate data stat = Except.error (ReadError.keyError "point_estimate")) ∧
    (∀ (stat_obj : List (String × Json)) (v : Json) (point : ℚ),
      data.lookup stat = some (Json.obj stat_obj) →
      stat_obj.lookup "point_estimate" = some v → pyFloat v = some point →
      ((∀ kvs, stat_obj.lookup "confidence_interval" ≠ some (Json.obj kvs)) →
        read_estimate data stat = Except.ok (point, point, point)) ∧
      (∀ (ci : List (String × Json)) (lo hi : ℚ),
        stat_obj.lookup "confidence_interval" = some (Json.obj ci) →
        ciGet ci "lower_bound" point = some lo →
        ciGet ci "upper_bound" point = some hi →
        read_estimate data stat = Except.ok (point, lo, hi))) := by
  refine ⟨?_, ?_, ?_, ?_⟩
  · intro h
    simp [read_estimate, h]
  · intro x hx hnobj
    cases x with
    | obj kvs => exact absurd rfl (hnobj kvs)
    | num q => simp [read_estimate, hx]
    | str s => simp [read_estimate, hx]
    | boolVal bb => simp [read_estimate, hx]
    | null => simp [read_estimate, hx]
  · intro stat_obj h1 h2
    simp [read_estimate, h1, h2]
  · intro stat_obj v point h1 h2 h3
    constructor
    · intro hno
      cases hci : stat_obj.lookup "confidence_interval" with
      | none => simp [read_estimate, h1, h2, h3, hci]
      | some x =>
        cases x with
        | obj kvs => exact absurd hci (hno kvs)
        | num q => simp [read_estimate, h1, h2, h3, hci]
        | str s => simp [read_estimate, h1, h2, h3, hci]
        | boolVal bb => simp [read_estimate, h1, h2, h3, hci]
        | null => simp [read_estimate, h1, h2, h3, hci]
    · intro ci lo hi hci hlo hhi
      simp [read_estimate, h1, h2, h3, hci, hlo, hhi]

/-- Witness for the amended C7: an absent statistic errors; a present one
without a confidence interval yields the degenerate triple. -/
theorem read_estimate_spec_witness :
    read_estimate [("mean", Json.obj [("point_estimate", Json.num 5)])] "median" =
      Except.error ReadError.statNotFound ∧
    read_estimate [("median", Json.obj [("point_estimate", Json.num 5)])] "median" =
      Except.ok (5, 5, 5) := by
  constructor
  · exact (read_estimate_spec [("mean", Json.obj [("point_estimate", Json.num 5)])]
      "median").1 (by rfl)
  · refine ((read_estimate_spec [("median", Json.obj [("point_estimate", Json.num 5)])]
      "median").2.2.2 [("point_estimate", Json.num 5)] (Json.num 5) 5
      (by rfl) (by rfl) (by rfl)).1 ?_
    intro kvs hcontra
    have hnone : [("point_estimate", Json.num 5)].lookup "confidence_interval" =
        (none : Option Json) := rfl
    rw [hnone] at hcontra
    cases hcontra

/-- C10: when the confidence-interval mapping is present, `read_estimate`
defaults each bound individually to the point estimate when its key is
absent, and returns the stored numeric bound when present. -/
theorem read_estimate_ci_defaults (data : List (String × Json)) (stat : String)
    (stat_obj ci : List (String × Json)) (v : Json) (point lo hi : ℚ)
    (h1 : data.lookup stat = some (Json.obj stat_obj))
    (h2 : stat_obj.lookup "point_estimate" = some v)
    (h3 : pyFloat v = some point)
    (h4 : stat_obj.lookup "confidence_interval" = some (Json.obj ci))
    (h5 : ciGet ci "lower_bound" point = some lo)
    (h6 : ciGet ci "upper_bound" point = some hi) :
    read_estimate data stat = Except.ok (point, lo, hi) ∧
    (ci.lookup "lower_bound" = none → lo = point) ∧
    (∀ q : ℚ, ci.lookup "lower_bound" = some (Json.num q) → lo = q) ∧
    (ci.lookup "upper_bound" = none → hi = point) ∧
    (∀ q : ℚ, ci.lookup "upper_bound" = some (Json.num q) → hi = q) := by
  refine ⟨by simp [read_estimate, h1, h2, h3, h4, h5, h6], ?_, ?_, ?_, ?_⟩
  · intro hnone
    simp only [ciGet, hnone] at h5
    exact (Option.some.inj h5).symm
  · intro q hq
    simp only [ciGet, hq, pyFloat] at h5
    exact (Option.some.inj h5).symm
  · intro hnone
    simp only [ciGet, hnone] at h6
    exact (Option.some.inj h6).symm
  · intro q hq
    simp only [ciGet, hq, pyFloat] at h6
    exact (Option.some.inj h6).symm

/-- Witness for C10: a confidence interval storing only the upper bound
yields the stored upper bound and the defaulted lower bound. -/
theorem read_estimate_ci_defaults_witness :
    read_estimate [("median", Json.obj [("point_estimate", Json.num 5),
        ("confidence_interval", Json.obj [("upper_bound", Json.num 9)])])] "median" =
      Except.ok (5, 5, 9) :=
  (read_estimate_ci_defaults
    [("median", Json.obj [("point_estimate", Json.num 5),
      ("confidence_interval", Json.obj [("upper_bound", Json.num 9)])])]
    "median"
    [("point_estimate", Json.num 5),
      ("confidence_interval", Json.obj [("upper_bound", Json.num 9)])]
    [("upper_bound", Json.num 9)]
    (Json.num 5) 5 5 9 rfl rfl rfl rfl rfl rfl).1

/-! ### Claims about the row collector -/

theorem missing_cond_eq (fs : Fs) (criterion_dir : List String) (metric : Metric)
    (sample : String) (d : Nat) :
    (!fs.fileExists (est_path criterion_dir d metric.la_bench sample)
      || !fs.fileExists (est_path criterion_dir d metric.na_bench sample)
      || !fs.fileExists (est_path criterion_dir d metric.fa_bench sample))
    = !allPresent fs criterion_dir metric sample d := by
  simp only [allPresent]
  cases fs.fileExists (est_path criterion_dir d metric.la_bench sample) <;>
    cases fs.fileExists (est_path criterion_dir d metric.na_bench sample) <;>
    cases fs.fileExists (est_path criterion_dir d metric.fa_bench sample) <;> rfl

/-- C2: whenever `collect_rows` succeeds, it partitions the input dimensions
all-or-nothing: the rows carry exactly the dimensions with all three
estimate files present, in input order; the skip list holds exactly the
remaining dimensions with their descriptive reasons, in input order; each
row combines the three read estimates of its dimension; and the input
dimensions are ascending because `discover_dims` sorts them. -/
theorem collect_rows_partition :
    (∀ (fs : Fs) (criterion_dir : List String) (dims : List Nat) (metric : Metric)
        (stat sample : String) (rows : List Row) (skipped : List String),
      collect_rows fs criterion_dir dims metric stat sample = Except.ok (rows, skipped) →
      rows.map Row.dim = dims.filter (allPresent fs criterion_dir metric sample) ∧
      skipped = (dims.filter
          (fun d => !allPresent fs criterion_dir metric sample d)).map
          (fun d => skip_reason d metric) ∧
      ∀ r ∈ rows,
        read_estimate (fs.parsed (est_path criterion_dir r.dim metric.la_bench sample)) stat =
          Except.ok (r.la_time, r.la_lo, r.la_hi) ∧
        read_estimate (fs.parsed (est_path criterion_dir r.dim metric.na_bench sample)) stat =
          Except.ok (r.na_time, r.na_lo, r.na_hi) ∧
        read_estimate (fs.parsed (est_path criterion_dir r.dim metric.fa_bench sample)) stat =
          Except.ok (r.fa_time, r.fa_lo, r.fa_hi)) ∧
    (∀ children : List (String × Bool), List.Sorted (· ≤ ·) (discover_dims children)) := by
  constructor
  · intro fs criterion_dir dims metric stat sample
    induction dims with
    | nil =>
      intro rows skipped h
      simp only [collect_rows] at h
      injection h with h1
      injection h1 with h2 h3
      subst h2
      subst h3
      simp
    | cons d rest ih =>
      intro rows skipped h
      simp only [collect_rows] at h
      rw [missing_cond_eq] at h
      by_cases hall : allPresent fs criterion_dir metric sample d = true
      · rw [if_neg (by simp [hall])] at h
        cases hla : read_estimate
            (fs.parsed (est_path criterion_dir d metric.la_bench sample)) stat with
        | error e => rw [hla] at h; simp at h
        | ok tla =>
          obtain ⟨la, la_lo, la_hi⟩ := tla
          rw [hla] at h
          cases hna : read_estimate
              (fs.parsed (est_path criterion_dir d metric.na_bench sample)) stat with
          | error e => rw [hna] at h; simp at h
          | ok tna =>
            obtain ⟨na, na_lo, na_hi⟩ := tna
            rw [hna] at h
            cases hfa : read_estimate
                (fs.parsed (est_path criterion_dir d metric.fa_bench sample)) stat with
            | error e => rw [hfa] at h; simp at h
            | ok tfa =>
              obtain ⟨fa, fa_lo, fa_hi⟩ := tfa
              rw [hfa] at h
              cases hrec : collect_rows fs criterion_dir rest metric stat sample with
              | error e => rw [hrec] at h; simp at h
              | ok p =>
                obtain ⟨rows', skipped'⟩ := p
                rw [hrec] at h
                simp only [Except.ok.injEq, Prod.mk.injEq] at h
                obtain ⟨h2, h3⟩ := h
                subst h2
                subst h3
                obtain ⟨ih1, ih2, ih3⟩ := ih rows' skipped' hrec
                refine ⟨?_, ?_, ?_⟩
                · simp [List.filter_cons, hall, ih1]
                · simp [List.filter_cons, hall, ih2]
                · intro r hr
                  rcases List.mem_cons.mp hr with hr | hr
                  · subst hr
                    exact ⟨hla, hna, hfa⟩
                  · exact ih3 r hr
      · have hfalse : allPresent fs criterion_dir metric sample d = false :=
          Bool.eq_false_iff.mpr hall
        rw [if_pos (by simp [hfalse])] at h
        cases hrec : collect_rows fs criterion_dir rest metric stat sample with
        | error e => rw [hrec] at h; simp at h
        | ok p =>
          obtain ⟨rows', skipped'⟩ := p
          rw [hrec] at h
          simp only [Except.ok.injEq, Prod.mk.injEq] at h
          obtain ⟨h2, h3⟩ := h
          subst h2
          subst h3
          obtain ⟨ih1, ih2, ih3⟩ := ih rows' skipped' hrec
          refine ⟨?_, ?_, ?_⟩
          · simp [List.filter_cons, hfalse, ih1]
          · simp [List.filter_cons, hfalse, ih2]
          · exact ih3
  · intro children
    exact List.sorted_insertionSort _ _

/-- Witness for C2 at a concrete filesystem with two dimensions: dimension 2
has all three estimate files and yields the single row, dimension 3 is
missing its files and is skipped with the descriptive reason. -/
theorem collect_rows_partition_witness :
    ([(⟨2, 3, 3, 3, 3, 3, 3, 3, 3, 3⟩ : Row)].map Row.dim =
      [2, 3].filter (allPresent (⟨fun p => p == ["d2", "la", "new", "estimates.json"] || p == ["d2", "na", "new", "estimates.json"] || p == ["d2", "fa", "new", "estimates.json"], fun _ => [("median", Json.obj [("point_estimate", Json.num 3)])]⟩ : Fs) [] (⟨"la", "na", "fa", "t"⟩ : Metric) "new")) ∧
    (["d3 (missing la, na, or fa)"] =
      ([2, 3].filter (fun d => !allPresent (⟨fun p => p == ["d2", "la", "new", "estimates.json"] || p == ["d2", "na", "new", "estimates.json"] || p == ["d2", "fa", "new", "estimates.json"], fun _ => [("median", Json.obj [("point_estimate", Json.num 3)])]⟩ : Fs) [] (⟨"la", "na", "fa", "t"⟩ : Metric) "new" d)).map
        (fun d => skip_reason d (⟨"la", "na", "fa", "t"⟩ : Metric))) ∧
    (∀ r ∈ [(⟨2, 3, 3, 3, 3, 3, 3, 3, 3, 3⟩ : Row)],
      read_estimate (Fs.parsed (⟨fun p => p == ["d2", "la", "new", "estimates.json"] || p == ["d2", "na", "new", "estimates.json"] || p == ["d2", "fa", "new", "estimates.json"], fun _ => [("median", Json.obj [("point_estimate", Json.num 3)])]⟩ : Fs) (est_path [] r.dim (Metric.la_bench (⟨"la", "na", "fa", "t"⟩ : Metric)) "new"))
          "median" = Except.ok (r.la_time, r.la_lo, r.la_hi) ∧
      read_estimate (Fs.parsed (⟨fun p => p == ["d2", "la", "new", "estimates.json"] || p == ["d2", "na", "new", "estimates.json"] || p == ["d2", "fa", "new", "estimates.json"], fun _ => [("median", Json.obj [("point_estimate", Json.num 3)])]⟩ : Fs) (est_path [] r.dim (Metric.na_bench (⟨"la", "na", "fa", "t"⟩ : Metric)) "new"))
          "median" = Except.ok (r.na_time, r.na_lo, r.na_hi) ∧
      read_estimate (Fs.parsed (⟨fun p => p == ["d2", "la", "new", "estimates.json"] || p == ["d2", "na", "new", "estimates.json"] || p == ["d2", "fa", "new", "estimates.json"], fun _ => [("median", Json.obj [("point_estimate", Json.num 3)])]⟩ : Fs) (est_path [] r.dim (Metric.fa_bench (⟨"la", "na", "fa", "t"⟩ : Metric)) "new"))
          "median" = Except.ok (r.fa_time, r.fa_lo, r.fa_hi)) :=
  collect_rows_partition.1 (⟨fun p => p == ["d2", "la", "new", "estimates.json"] || p == ["d2", "na", "new", "estimates.json"] || p == ["d2", "fa", "new", "estimates.json"], fun _ => [("median", Json.obj [("point_estimate", Json.num 3)])]⟩ : Fs) [] [2, 3] (⟨"la", "na", "fa", "t"⟩ : Metric) "median" "new"
    [(⟨2, 3, 3, 3, 3, 3, 3, 3, 3, 3⟩ : Row)] ["d3 (missing la, na, or fa)"] (by rfl)

/-! ### Claims about the percentage calculator and the Markdown table -/

/-- C5: with a baseline of exactly zero, `pct_reduction` returns the
not-applicable sentinel for every candidate value; the division happens
only on the branch where the baseline is nonzero, so this case never
divides (and, the embedding being total, never fails). -/
theorem pct_reduction_zero_baseline (value : ℚ) :
    pct_reduction 0 value = "n/a" := by
  simp [pct_reduction]

theorem roundHalfEven_intCast (n : Int) : roundHalfEven (n : ℚ) = n := by
  simp only [roundHalfEven, Int.floor_intCast]
  norm_num

theorem roundHalfEven_of_gt (q : ℚ) (f : Int) (hf : ⌊q⌋ = f) (h : (1 : ℚ)/2 < q - f) :
    roundHalfEven q = f + 1 := by
  simp only [roundHalfEven, hf]
  rw [if_neg (by linarith), if_pos h]

theorem formatFixed_eval (plus sep : Bool) (k : Nat) (q : ℚ) (n : Int) (neg : Bool)
    (hq : roundHalfEven (q * tenPow k) = n)
    (hneg : decide (q < 0) = neg) :
    formatFixed plus sep k q = formatDigits plus sep k neg n.natAbs := by
  simp only [formatFixed, hq, hneg]

/-- C6: for every strictly positive baseline, comparing the baseline with
itself yields the percentage zero, formatted with an explicit plus sign and
one decimal place. -/
theorem pct_reduction_self (b : ℚ) (hb : 0 < b) :
    pct_reduction b b = "+0.0%" := by
  simp only [pct_reduction]
  rw [if_neg hb.ne']
  have h0 : (b - b) / b * 100 = 0 := by
    rw [sub_self, zero_div, zero_mul]
  rw [h0]
  rw [formatFixed_eval true false 1 0 0 false ?_ ?_]
  · decide
  · rw [zero_mul]
    exact roundHalfEven_intCast 0
  · exact decide_eq_false (lt_irrefl 0)

/-- Witness for C6 at baseline one. -/
theorem pct_reduction_self_witness : pct_reduction 1 1 = "+0.0%" :=
  pct_reduction_self 1 (by norm_num)

theorem pct_eval_int (baseline value : ℚ) (hb : baseline ≠ 0) (n : Int) (neg : Bool)
    (h : (baseline - value) / baseline * 100 * tenPow 1 = (n : ℚ))
    (hneg : decide ((baseline - value) / baseline * 100 < 0) = neg) :
    pct_reduction baseline value = formatDigits true false 1 neg n.natAbs ++ "%" := by
  simp only [pct_reduction]
  rw [if_neg hb, formatFixed_eval true false 1 _ n neg (by rw [h, roundHalfEven_intCast]) hneg]

theorem formatFixed_int_eval (plus sep : Bool) (k : Nat) (q : ℚ) (n : Int) (neg : Bool)
    (h : q * tenPow k = (n : ℚ)) (hneg : decide (q < 0) = neg) :
    formatFixed plus sep k q = formatDigits plus sep k neg n.natAbs :=
  formatFixed_eval plus sep k q n neg (by rw [h, roundHalfEven_intCast]) hneg

set_option maxRecDepth 4000 in
/-- C8: the two concrete example rows at statistic median produce exactly
the documented table: timing cells with thousands separators and three
decimal places, comparison cells in signed one-decimal percentage format. -/
theorem markdown_table_example :
    markdown_table
        [⟨2, 50, 0, 0, 100, 0, 0, 200, 0, 0⟩, ⟨64, 1000, 0, 0, 900, 0, 0, 800, 0, 0⟩]
        "median" =
      "| D | la-stack median (ns) | nalgebra median (ns) | faer median (ns) | la-stack vs nalgebra | la-stack vs faer |\n" ++
      "|---:|--------------------:|--------------------:|----------------:|---------------------:|----------------:|\n" ++
      "| 2 | 50.000 | 100.000 | 200.000 | +50.0% | +75.0% |\n" ++
      "| 64 | 1,000.000 | 900.000 | 800.000 | -11.1% | -25.0% |" := by
  have h50 : formatFixed false true 3 (50 : ℚ) = "50.000" := by
    rw [formatFixed_int_eval false true 3 50 50000 false
      (by simp only [tenPow]; push_cast; norm_num) (decide_eq_false (by norm_num))]
    decide
  have h100 : formatFixed false true 3 (100 : ℚ) = "100.000" := by
    rw [formatFixed_int_eval false true 3 100 100000 false
      (by simp only [tenPow]; push_cast; norm_num) (decide_eq_false (by norm_num))]
    decide
  have h200 : formatFixed false true 3 (200 : ℚ) = "200.000" := by
    rw [formatFixed_int_eval false true 3 200 200000 false
      (by simp only [tenPow]; push_cast; norm_num) (decide_eq_false (by norm_num))]
    decide
  have h1000 : formatFixed false true 3 (1000 : ℚ) = "1,000.000" := by
    rw [formatFixed_int_eval false true 3 1000 1000000 false
      (by simp only [tenPow]; push_cast; norm_num) (decide_eq_false (by norm_num))]
    decide
  have h900 : formatFixed false true 3 (900 : ℚ) = "900.000" := by
    rw [formatFixed_int_eval false true 3 900 900000 false
      (by simp only [tenPow]; push_cast; norm_num) (decide_eq_false (by norm_num))]
    decide
  have h800 : formatFixed false true 3 (800 : ℚ) = "800.000" := by
    rw [formatFixed_int_eval false true 3 800 800000 false
      (by simp only [tenPow]; push_cast; norm_num) (decide_eq_false (by norm_num))]
    decide
  have p50 : pct_reduction 100 50 = "+50.0%" := by
    rw [pct_eval_int 100 50 (by norm_num) 500 false
      (by simp only [tenPow]; push_cast; norm_num) (decide_eq_false (by norm_num))]
    decide
  have p75 : pct_reduction 200 50 = "+75.0%" := by
    rw [pct_eval_int 200 50 (by norm_num) 750 false
      (by simp only [tenPow]; push_cast; norm_num) (decide_eq_false (by norm_num))]
    decide
  have p25 : pct_reduction 800 1000 = "-25.0%" := by
    rw [pct_eval_int 800 1000 (by norm_num) (-250) true
      (by simp only [tenPow]; push_cast; norm_num) (decide_eq_true (by norm_num))]
    decide
  have p11 : pct_reduction 900 1000 = "-11.1%" := by
    have e0 : ((900 : ℚ) - 1000) / 900 * 100 * tenPow 1 = -1000/9 := by
      simp only [tenPow]
      norm_num
    have hf : ⌊(-1000 : ℚ)/9⌋ = (-112 : Int) := by
      rw [Int.floor_eq_iff]
      refine ⟨by norm_num, by norm_num⟩
    have e2 : roundHalfEven (((900 : ℚ) - 1000) / 900 * 100 * tenPow 1) = -111 := by
      rw [e0, roundHalfEven_of_gt ((-1000 : ℚ)/9) (-112) hf (by norm_num)]
      decide
    simp only [pct_reduction]
    rw [if_neg (by norm_num),
      formatFixed_eval true false 1 _ (-111) true e2 (decide_eq_true (by norm_num))]
    decide
  simp only [markdown_table, rowLine, List.map_cons, List.map_nil]
  rw [h50, h100, h200, h1000, h900, h800, p50, p75, p11, p25]
  decide
